import Mathlib

/-!
Shallow embedding of the confidence-interval estimation engine of the
namelizhan/confidence_interval browser extension.

Two estimation paths exist in the source:
* an aggregate-count path (popup variant in src/confInt.js) that weights a
  raw review count by a category profile, and
* a star-distribution path (popup variants in src/unnamed/part_000 and
  src/unnamed/part_001) that computes the mean star rating, its standard
  error, a 95 percent confidence interval on the 1-5 star scale and a
  rescaling to a 0-100 percent scale.

JavaScript numbers are modelled as real numbers; review counts, which the
source obtains from parseInt and Math.round of non-negative data, are
modelled as naturals where the claims restrict to them.
-/

namespace ConfInt

/-- A category configuration record, one entry of the categoryConfigs object
in src/confInt.js: a saturation ceiling on reviews, an influence weight and a
base uncertainty factor. -/
structure CategoryProfile where
  maxReviews : ℕ
  weight : ℝ
  baseUncertaintyFactor : ℝ

/-- The fallback configuration, entry Generic of categoryConfigs. -/
noncomputable def genericProfile : CategoryProfile := ⟨1000, 0.55, 0.45⟩

/-- The categoryConfigs object of src/confInt.js as an ordered association
list; object key insertion order is the iteration order of the for-in loop. -/
noncomputable def categoryConfigs : List (String × CategoryProfile) :=
  [("Restaurant", ⟨5000, 0.85, 0.15⟩),
   ("Cafe", ⟨3000, 0.80, 0.20⟩),
   ("Store", ⟨2000, 0.70, 0.30⟩),
   ("Park", ⟨500, 0.40, 0.60⟩),
   ("Hotel", ⟨10000, 0.90, 0.10⟩),
   ("Museum", ⟨1500, 0.65, 0.35⟩),
   ("Bank", ⟨300, 0.30, 0.70⟩),
   ("Hospital", ⟨2000, 0.50, 0.50⟩),
   ("School", ⟨1000, 0.45, 0.55⟩),
   ("Generic", genericProfile)]

/-- JavaScript String.prototype.includes: substring containment. -/
def jsIncludes (s pat : String) : Bool := decide (pat.toList <:+: s.toList)

/-- One iteration test of the category-matching loop of src/confInt.js:
lowerCategory.includes(key.toLowerCase()) or
placeName.toLowerCase().includes(key.toLowerCase()). -/
def matchesKey (category placeName key : String) : Bool :=
  jsIncludes category.toLower key.toLower || jsIncludes placeName.toLower key.toLower

/-- The category-resolution loop of src/confInt.js: selectedCategoryConfig
starts as the Generic entry, the for-in loop takes the first key matching
the category or place name and breaks. -/
noncomputable def selectCategoryConfig (category placeName : String) :
    String × CategoryProfile :=
  match categoryConfigs.find? (fun kv => matchesKey category placeName kv.1) with
  | some kv => kv
  | none => ("Generic", genericProfile)

/-- normalizedReviews = Math.min(reviewsCount, selectedCategoryConfig.maxReviews). -/
def normalizedReviews (reviewsCount : ℕ) (cfg : CategoryProfile) : ℕ :=
  min reviewsCount cfg.maxReviews

/-- mu_confidence_score = (normalizedReviews / maxReviews) * weight * 100. -/
noncomputable def mu_confidence_score (reviewsCount : ℕ) (cfg : CategoryProfile) : ℝ :=
  ((normalizedReviews reviewsCount cfg : ℝ) / (cfg.maxReviews : ℝ)) * cfg.weight * 100

/-- effectiveSampleSize = Math.sqrt(reviewsCount + 1). -/
noncomputable def effectiveSampleSize (reviewsCount : ℕ) : ℝ :=
  Real.sqrt ((reviewsCount : ℝ) + 1)

/-- baseErrorMagnitude, the fixed scaling constant of the heuristic SE. -/
def baseErrorMagnitude : ℝ := 20

/-- se = (baseErrorMagnitude * baseUncertaintyFactor) / effectiveSampleSize. -/
noncomputable def se (reviewsCount : ℕ) (cfg : CategoryProfile) : ℝ :=
  baseErrorMagnitude * cfg.baseUncertaintyFactor / effectiveSampleSize reviewsCount

/-- k_z_score = 1.96, the z-score of the 95 percent confidence level. -/
def k_z_score : ℝ := 1.96

/-- lowerBound = Math.max(0, mu_confidence_score - se * k_z_score). -/
noncomputable def lowerBound (reviewsCount : ℕ) (cfg : CategoryProfile) : ℝ :=
  max 0 (mu_confidence_score reviewsCount cfg - se reviewsCount cfg * k_z_score)

/-- upperBound = Math.min(100, mu_confidence_score + se * k_z_score). -/
noncomputable def upperBound (reviewsCount : ℕ) (cfg : CategoryProfile) : ℝ :=
  min 100 (mu_confidence_score reviewsCount cfg + se reviewsCount cfg * k_z_score)

lemma mu_nonneg (r : ℕ) (cfg : CategoryProfile) (hw : 0 ≤ cfg.weight) :
    0 ≤ mu_confidence_score r cfg := by
  unfold mu_confidence_score
  have h1 : (0:ℝ) ≤ (normalizedReviews r cfg : ℝ) / (cfg.maxReviews : ℝ) :=
    div_nonneg (Nat.cast_nonneg _) (Nat.cast_nonneg _)
  nlinarith

lemma ratio_le_one (r : ℕ) (cfg : CategoryProfile) (hM : 0 < cfg.maxReviews) :
    (normalizedReviews r cfg : ℝ) / (cfg.maxReviews : ℝ) ≤ 1 := by
  rw [div_le_one (by exact_mod_cast hM)]
  exact_mod_cast min_le_right r cfg.maxReviews

lemma mu_le_weight_mul (r : ℕ) (cfg : CategoryProfile) (hM : 0 < cfg.maxReviews)
    (hw : 0 ≤ cfg.weight) : mu_confidence_score r cfg ≤ cfg.weight * 100 := by
  have h1 := ratio_le_one r cfg hM
  have h0 : (0:ℝ) ≤ (normalizedReviews r cfg : ℝ) / (cfg.maxReviews : ℝ) :=
    div_nonneg (Nat.cast_nonneg _) (Nat.cast_nonneg _)
  unfold mu_confidence_score
  nlinarith

lemma mu_le_100 (r : ℕ) (cfg : CategoryProfile) (hM : 0 < cfg.maxReviews)
    (hw0 : 0 ≤ cfg.weight) (hw1 : cfg.weight ≤ 1) :
    mu_confidence_score r cfg ≤ 100 := by
  have := mu_le_weight_mul r cfg hM hw0
  nlinarith

lemma se_pos (r : ℕ) (cfg : CategoryProfile) (hu : 0 < cfg.baseUncertaintyFactor) :
    0 < se r cfg := by
  unfold se effectiveSampleSize baseErrorMagnitude
  have hs : 0 < Real.sqrt ((r : ℝ) + 1) := Real.sqrt_pos.2 (by positivity)
  positivity

/-- C1: on the aggregate-count path, for every reviewsCount and every profile
with positive maxReviews, weight in (0,1] and baseUncertaintyFactor in (0,1],
the computed triple satisfies 0 ≤ lowerBound ≤ mu_confidence_score ≤
upperBound ≤ 100. -/
theorem aggregate_count_bounds (r : ℕ) (cfg : CategoryProfile)
    (hM : 0 < cfg.maxReviews) (hw0 : 0 < cfg.weight) (hw1 : cfg.weight ≤ 1)
    (hu0 : 0 < cfg.baseUncertaintyFactor) (hu1 : cfg.baseUncertaintyFactor ≤ 1) :
    0 ≤ lowerBound r cfg ∧ lowerBound r cfg ≤ mu_confidence_score r cfg ∧
    mu_confidence_score r cfg ≤ upperBound r cfg ∧ upperBound r cfg ≤ 100 := by
  have hmu0 : 0 ≤ mu_confidence_score r cfg := mu_nonneg r cfg hw0.le
  have hmu100 : mu_confidence_score r cfg ≤ 100 := mu_le_100 r cfg hM hw0.le hw1
  have hse : 0 < se r cfg := se_pos r cfg hu0
  have hk : (0:ℝ) < k_z_score := by norm_num [k_z_score]
  refine ⟨le_max_left _ _, ?_, ?_, min_le_left _ _⟩
  · exact max_le hmu0 (by nlinarith)
  · exact le_min hmu100 (by nlinarith)

/-- Closed instance of aggregate_count_bounds at reviewsCount = 10 and the
Generic profile. -/
theorem aggregate_count_bounds_witness :
    0 ≤ lowerBound 10 genericProfile ∧
    lowerBound 10 genericProfile ≤ mu_confidence_score 10 genericProfile ∧
    mu_confidence_score 10 genericProfile ≤ upperBound 10 genericProfile ∧
    upperBound 10 genericProfile ≤ 100 :=
  aggregate_count_bounds 10 genericProfile (by norm_num [genericProfile])
    (by norm_num [genericProfile]) (by norm_num [genericProfile])
    (by norm_num [genericProfile]) (by norm_num [genericProfile])

/-- C8: holding the profile fixed, mu_confidence_score is non-decreasing in
reviewsCount, constant from maxReviews on, and se is strictly decreasing in
reviewsCount. -/
theorem aggregate_monotonicity (cfg : CategoryProfile) (hM : 0 < cfg.maxReviews)
    (hw : 0 ≤ cfg.weight) (hu : 0 < cfg.baseUncertaintyFactor) :
    (∀ r1 r2 : ℕ, r1 ≤ r2 →
      mu_confidence_score r1 cfg ≤ mu_confidence_score r2 cfg) ∧
    (∀ r : ℕ, cfg.maxReviews ≤ r →
      mu_confidence_score r cfg = mu_confidence_score cfg.maxReviews cfg) ∧
    (∀ r1 r2 : ℕ, r1 < r2 → se r2 cfg < se r1 cfg) := by
  refine ⟨?_, ?_, ?_⟩
  · intro r1 r2 h12
    unfold mu_confidence_score
    have hmin : (normalizedReviews r1 cfg : ℝ) ≤ (normalizedReviews r2 cfg : ℝ) := by
      exact_mod_cast min_le_min h12 (le_refl cfg.maxReviews)
    have hMp : (0:ℝ) < (cfg.maxReviews : ℝ) := by exact_mod_cast hM
    have hdiv : (normalizedReviews r1 cfg : ℝ) / (cfg.maxReviews : ℝ) ≤
        (normalizedReviews r2 cfg : ℝ) / (cfg.maxReviews : ℝ) := by gcongr
    nlinarith
  · intro r hr
    unfold mu_confidence_score normalizedReviews
    rw [min_eq_right hr, min_self]
  · intro r1 r2 h12
    unfold se effectiveSampleSize baseErrorMagnitude
    have h1 : (0:ℝ) < Real.sqrt ((r1 : ℝ) + 1) := Real.sqrt_pos.2 (by positivity)
    have hlt : Real.sqrt ((r1 : ℝ) + 1) < Real.sqrt ((r2 : ℝ) + 1) := by
      apply Real.sqrt_lt_sqrt (by positivity)
      have : (r1 : ℝ) < (r2 : ℝ) := by exact_mod_cast h12
      linarith
    exact div_lt_div_of_pos_left (by positivity) h1 hlt

/-- Closed instance of aggregate_monotonicity at the Generic profile:
the point at 10 reviews is at most the point at 20, the point plateaus at
2000 reviews, and se at 20 reviews is below se at 10. -/
theorem aggregate_monotonicity_witness :
    mu_confidence_score 10 genericProfile ≤ mu_confidence_score 20 genericProfile ∧
    mu_confidence_score 2000 genericProfile =
      mu_confidence_score genericProfile.maxReviews genericProfile ∧
    se 20 genericProfile < se 10 genericProfile := by
  have h := aggregate_monotonicity genericProfile (by norm_num [genericProfile])
    (by norm_num [genericProfile]) (by norm_num [genericProfile])
  exact ⟨h.1 10 20 (by norm_num), h.2.1 2000 (by norm_num [genericProfile]),
    h.2.2 10 20 (by norm_num)⟩

/-- C9: the point estimate never exceeds weight * 100, with equality exactly
when reviewsCount is at least maxReviews. -/
theorem aggregate_weight_cap (r : ℕ) (cfg : CategoryProfile)
    (hM : 0 < cfg.maxReviews) (hw : 0 < cfg.weight) :
    mu_confidence_score r cfg ≤ cfg.weight * 100 ∧
    (mu_confidence_score r cfg = cfg.weight * 100 ↔ cfg.maxReviews ≤ r) := by
  have hMp : (0:ℝ) < (cfg.maxReviews : ℝ) := by exact_mod_cast hM
  refine ⟨mu_le_weight_mul r cfg hM hw.le, ?_⟩
  unfold mu_confidence_score
  constructor
  · intro h
    have hratio : (normalizedReviews r cfg : ℝ) / (cfg.maxReviews : ℝ) = 1 := by
      have hw100 : cfg.weight * 100 ≠ 0 := by positivity
      have h2 : ((normalizedReviews r cfg : ℝ) / (cfg.maxReviews : ℝ)) *
          (cfg.weight * 100) = 1 * (cfg.weight * 100) := by linarith [h]
      exact mul_right_cancel₀ hw100 h2
    rw [div_eq_one_iff_eq (ne_of_gt hMp)] at hratio
    have : normalizedReviews r cfg = cfg.maxReviews := by exact_mod_cast hratio
    unfold normalizedReviews at this
    rcases le_total r cfg.maxReviews with hle | hle
    · rw [min_eq_left hle] at this
      omega
    · exact hle
  · intro h
    unfold normalizedReviews
    rw [min_eq_right h, div_self (ne_of_gt hMp), one_mul]

/-- Closed instance of aggregate_weight_cap at the Bank profile (weight 0.30):
no review count below maxReviews can reach 30 percent, and at maxReviews the
cap is attained. -/
theorem aggregate_weight_cap_witness :
    mu_confidence_score 250 ⟨300, 0.30, 0.70⟩ ≤ 0.30 * 100 ∧
    (mu_confidence_score 250 ⟨300, 0.30, 0.70⟩ = 0.30 * 100 ↔ 300 ≤ 250) :=
  aggregate_weight_cap 250 ⟨300, 0.30, 0.70⟩ (by norm_num) (by norm_num)

lemma find?_first_spec {α : Type} (p : α → Bool) (l : List α) :
    (∃ i : Fin l.length, p (l.get i) = true ∧
      (∀ j : Fin l.length, (j : ℕ) < (i : ℕ) → p (l.get j) = false) ∧
      l.find? p = some (l.get i)) ∨
    ((∀ a ∈ l, p a = false) ∧ l.find? p = none) := by
  induction l with
  | nil => right; simp
  | cons a t ih =>
    cases ha : p a with
    | true =>
      left
      refine ⟨⟨0, by simp⟩, by simpa using ha, ?_, ?_⟩
      · intro j hj
        simp at hj
      · simp [List.find?_cons_of_pos _ ha]
    | false =>
      rcases ih with ⟨i, hp, hprev, hfind⟩ | ⟨hall, hfind⟩
      · left
        refine ⟨⟨(i : ℕ) + 1, by simpa using i.isLt⟩, by simpa using hp, ?_, ?_⟩
        · intro j hj
          rcases j with ⟨j, hjlt⟩
          cases j with
          | zero => simpa using ha
          | succ k =>
            have hk : k < t.length := by simpa using hjlt
            have := hprev ⟨k, hk⟩ (by simpa using hj)
            simpa using this
        · have hget : (a :: t).get ⟨(i : ℕ) + 1, by simpa using i.isLt⟩ = t.get i := rfl
          rw [hget, List.find?_cons_of_neg _ (by simp [ha])]
          exact hfind
      · right
        constructor
        · intro b hb
          rcases List.mem_cons.1 hb with rfl | hb
          · exact ha
          · exact hall b hb
        · rw [List.find?_cons_of_neg _ (by simp [ha])]
          exact hfind

/-- C7: the category resolver scans categoryConfigs in its fixed order and
returns the first entry whose key matches the category or the place name
case-insensitively as a substring; when no key matches it returns the
Generic profile under the key Generic. It is a total function, so
resolution always succeeds. -/
theorem category_resolution (category placeName : String) :
    (∃ i : Fin categoryConfigs.length,
      matchesKey category placeName (categoryConfigs.get i).1 = true ∧
      (∀ j : Fin categoryConfigs.length, (j : ℕ) < (i : ℕ) →
        matchesKey category placeName (categoryConfigs.get j).1 = false) ∧
      selectCategoryConfig category placeName = categoryConfigs.get i) ∨
    ((∀ kv ∈ categoryConfigs, matchesKey category placeName kv.1 = false) ∧
      selectCategoryConfig category placeName = ("Generic", genericProfile)) := by
  rcases find?_first_spec (fun kv => matchesKey category placeName kv.1)
      categoryConfigs with ⟨i, hp, hprev, hfind⟩ | ⟨hall, hfind⟩
  · left
    exact ⟨i, hp, fun j hj => hprev j hj, by unfold selectCategoryConfig; rw [hfind]⟩
  · right
    exact ⟨fun kv hkv => hall kv hkv, by unfold selectCategoryConfig; rw [hfind]⟩

end ConfInt

namespace Part000

/-- sumArray: arr.reduce((sum, current) => sum + current, 0). -/
def sumArray (arr : List ℝ) : ℝ := arr.foldl (fun sum current => sum + current) 0

/-- The accumulation loop of mean_stars: for i in 0..4,
weightedSum += revs[i] * (5 - i). -/
def weightedSum (revs : List ℝ) : ℝ :=
  (List.range 5).foldl (fun acc i => acc + revs.getD i 0 * (5 - (i : ℝ))) 0

/-- mean_stars(revs): 0 when the length is not 5 or the total is 0, else the
weighted sum divided by the total. -/
noncomputable def mean_stars (revs : List ℝ) : ℝ :=
  if revs.length ≠ 5 then 0
  else if sumArray revs = 0 then 0
  else weightedSum revs / sumArray revs

/-- The accumulation loop of standard_dev_stars: for i in 0..4,
sumSquaredDifferences += revs[i] * Math.pow((5 - i) - mu, 2). -/
def sumSquaredDifferences (revs : List ℝ) (mu : ℝ) : ℝ :=
  (List.range 5).foldl (fun acc i => acc + revs.getD i 0 * ((5 - (i : ℝ)) - mu) ^ 2) 0

/-- standard_dev_stars(revs, mu): 0 when the length is not 5 or the total is
at most 1, else sqrt of the squared differences over total - 1. -/
noncomputable def standard_dev_stars (revs : List ℝ) (mu : ℝ) : ℝ :=
  if revs.length ≠ 5 then 0
  else if sumArray revs ≤ 1 then 0
  else Real.sqrt (sumSquaredDifferences revs mu / (sumArray revs - 1))

/-- getMeanAndSE(rev_nums): mean, standard deviation at that mean, and the
standard error stdev / sqrt(total) guarded by total > 0. -/
noncomputable def getMeanAndSE (rev_nums : List ℝ) : ℝ × ℝ :=
  let mu := mean_stars rev_nums
  let standard_dev := standard_dev_stars rev_nums mu
  let totalReviews := sumArray rev_nums
  (mu, if totalReviews > 0 then standard_dev / Real.sqrt totalReviews else 0)

/-- get_confidence_int(mu, se, k) = [mu - se * k, mu + se * k]. -/
def get_confidence_int (mu se k : ℝ) : ℝ × ℝ := (mu - se * k, mu + se * k)

/-- estimatedConfidencePercent = ((meanStarRating - 1) / 4) * 100, computed
from the first component of getMeanAndSE; never clamped. -/
noncomputable def estimatedConfidencePercent (starCounts : List ℝ) : ℝ :=
  ((getMeanAndSE starCounts).1 - 1) / 4 * 100

/-- lowerBoundPercent = ((confidenceIntervalStars[0] - 1) / 4) * 100. -/
noncomputable def lowerBoundPercent (starCounts : List ℝ) : ℝ :=
  ((get_confidence_int (getMeanAndSE starCounts).1 (getMeanAndSE starCounts).2
    1.96).1 - 1) / 4 * 100

/-- upperBoundPercent = ((confidenceIntervalStars[1] - 1) / 4) * 100. -/
noncomputable def upperBoundPercent (starCounts : List ℝ) : ℝ :=
  ((get_confidence_int (getMeanAndSE starCounts).1 (getMeanAndSE starCounts).2
    1.96).2 - 1) / 4 * 100

/-- displayLowerBound = Math.max(0, lowerBoundPercent). -/
noncomputable def displayLowerBound (starCounts : List ℝ) : ℝ :=
  max 0 (lowerBoundPercent starCounts)

/-- displayUpperBound = Math.min(100, upperBoundPercent). -/
noncomputable def displayUpperBound (starCounts : List ℝ) : ℝ :=
  min 100 (upperBoundPercent starCounts)

/-- The outcomes the click handler of src/unnamed/part_000 can render for the
star-distribution path: the distinguished not-enough-data message, a computed
estimate triple, or the generic error message of the surrounding catch block,
reached when the handler body throws. -/
inductive StarPathOutcome where
  | insufficientData
  | estimate (point lower upper : ℝ)
  | scriptError

/-- The star-distribution branch of the checkConfidence click handler.
The handler first evaluates sumArray(starCounts): when starCounts is absent
(null or undefined), arr.reduce throws a TypeError before the guard
(totalReviewsCount === 0 or not starCounts or starCounts.length !== 5) can
run, and the outer catch renders the generic error message. For a present
array the guard reduces to sum = 0 or length not 5, since a JavaScript array
is always truthy. -/
noncomputable def checkConfidenceStarPath (starCounts : Option (List ℝ)) :
    StarPathOutcome :=
  match starCounts with
  | none => StarPathOutcome.scriptError
  | some l =>
    if sumArray l = 0 ∨ l.length ≠ 5 then StarPathOutcome.insufficientData
    else StarPathOutcome.estimate (estimatedConfidencePercent l)
      (displayLowerBound l) (displayUpperBound l)

lemma sumArray_eval (a b c d e : ℝ) : sumArray [a, b, c, d, e] = a + b + c + d + e := by
  simp [sumArray, List.foldl]

lemma weightedSum_eval (a b c d e : ℝ) :
    weightedSum [a, b, c, d, e] = a * 5 + b * 4 + c * 3 + d * 2 + e * 1 := by
  have h5 : List.range 5 = [0, 1, 2, 3, 4] := by decide
  simp [weightedSum, h5, List.foldl, List.getD]
  norm_num

lemma sumSquaredDifferences_eval (a b c d e mu : ℝ) :
    sumSquaredDifferences [a, b, c, d, e] mu =
      a * (5 - mu) ^ 2 + b * (4 - mu) ^ 2 + c * (3 - mu) ^ 2 +
      d * (2 - mu) ^ 2 + e * (1 - mu) ^ 2 := by
  have h5 : List.range 5 = [0, 1, 2, 3, 4] := by decide
  simp [sumSquaredDifferences, h5, List.foldl, List.getD]
  norm_num

lemma mean_stars_eval (a b c d e : ℝ) (h : a + b + c + d + e ≠ 0) :
    mean_stars [a, b, c, d, e] =
      (a * 5 + b * 4 + c * 3 + d * 2 + e * 1) / (a + b + c + d + e) := by
  unfold mean_stars
  simp only [sumArray_eval, weightedSum_eval, List.length_cons, List.length_nil]
  norm_num [h]

lemma mean_stars_zero (a b c d e : ℝ) (h : a + b + c + d + e = 0) :
    mean_stars [a, b, c, d, e] = 0 := by
  unfold mean_stars
  simp only [sumArray_eval, List.length_cons, List.length_nil]
  norm_num [h]

lemma mean_stars_length (l : List ℝ) (h : l.length ≠ 5) : mean_stars l = 0 := by
  unfold mean_stars
  rw [if_pos h]

lemma standard_dev_stars_eval (a b c d e mu : ℝ) (h : 1 < a + b + c + d + e) :
    standard_dev_stars [a, b, c, d, e] mu =
      Real.sqrt ((a * (5 - mu) ^ 2 + b * (4 - mu) ^ 2 + c * (3 - mu) ^ 2 +
        d * (2 - mu) ^ 2 + e * (1 - mu) ^ 2) / (a + b + c + d + e - 1)) := by
  unfold standard_dev_stars
  simp only [sumArray_eval, sumSquaredDifferences_eval, List.length_cons,
    List.length_nil]
  norm_num [not_le.2 h]

lemma standard_dev_stars_small (a b c d e mu : ℝ) (h : a + b + c + d + e ≤ 1) :
    standard_dev_stars [a, b, c, d, e] mu = 0 := by
  unfold standard_dev_stars
  simp only [sumArray_eval, List.length_cons, List.length_nil]
  norm_num [h]

lemma standard_dev_stars_length (l : List ℝ) (mu : ℝ) (h : l.length ≠ 5) :
    standard_dev_stars l mu = 0 := by
  unfold standard_dev_stars
  rw [if_pos h]

lemma standard_dev_stars_nonneg (l : List ℝ) (mu : ℝ) :
    0 ≤ standard_dev_stars l mu := by
  unfold standard_dev_stars
  split_ifs with h1 h2
  · exact le_refl 0
  · exact le_refl 0
  · exact Real.sqrt_nonneg _

lemma getMeanAndSE_fst (l : List ℝ) : (getMeanAndSE l).1 = mean_stars l := rfl

lemma getMeanAndSE_snd_pos (l : List ℝ) (h : 0 < sumArray l) :
    (getMeanAndSE l).2 =
      standard_dev_stars l (mean_stars l) / Real.sqrt (sumArray l) := by
  unfold getMeanAndSE
  simp only
  rw [if_pos h]

lemma getMeanAndSE_snd_nonpos (l : List ℝ) (h : ¬ 0 < sumArray l) :
    (getMeanAndSE l).2 = 0 := by
  unfold getMeanAndSE
  simp only
  rw [if_neg h]

lemma se_nonneg (l : List ℝ) : 0 ≤ (getMeanAndSE l).2 := by
  by_cases h : 0 < sumArray l
  · rw [getMeanAndSE_snd_pos l h]
    exact div_nonneg (standard_dev_stars_nonneg l _) (Real.sqrt_nonneg _)
  · rw [getMeanAndSE_snd_nonpos l h]

lemma mean_stars_mem (a b c d e : ℕ) (h : 0 < a + b + c + d + e) :
    1 ≤ mean_stars [(a : ℝ), b, c, d, e] ∧
    mean_stars [(a : ℝ), b, c, d, e] ≤ 5 := by
  have hpos : (0 : ℝ) < (a : ℝ) + b + c + d + e := by exact_mod_cast h
  rw [mean_stars_eval _ _ _ _ _ (ne_of_gt hpos)]
  have ha : (0 : ℝ) ≤ (a : ℝ) := Nat.cast_nonneg a
  have hb : (0 : ℝ) ≤ (b : ℝ) := Nat.cast_nonneg b
  have hc : (0 : ℝ) ≤ (c : ℝ) := Nat.cast_nonneg c
  have hd : (0 : ℝ) ≤ (d : ℝ) := Nat.cast_nonneg d
  have he : (0 : ℝ) ≤ (e : ℝ) := Nat.cast_nonneg e
  constructor
  · rw [le_div_iff hpos]
    linarith
  · rw [div_le_iff hpos]
    linarith

/-- C3: for a 5-element list of non-negative integer star counts with
positive total, mean_stars is the weighted sum with weights 5 down to 1
divided by the total; for zero total, and for lists whose length is not 5,
it returns the sentinel 0. -/
theorem mean_stars_spec (a b c d e : ℕ) :
    (0 < a + b + c + d + e →
      mean_stars [(a : ℝ), b, c, d, e] =
        ((a : ℝ) * 5 + b * 4 + c * 3 + d * 2 + e * 1) /
          ((a : ℝ) + b + c + d + e)) ∧
    (a + b + c + d + e = 0 → mean_stars [(a : ℝ), b, c, d, e] = 0) ∧
    (∀ l : List ℝ, l.length ≠ 5 → mean_stars l = 0) := by
  refine ⟨?_, ?_, mean_stars_length⟩
  · intro h
    have hpos : (0 : ℝ) < (a : ℝ) + b + c + d + e := by exact_mod_cast h
    exact mean_stars_eval _ _ _ _ _ (ne_of_gt hpos)
  · intro h
    have h0 : (a : ℝ) + b + c + d + e = 0 := by exact_mod_cast h
    exact mean_stars_zero _ _ _ _ _ h0

/-- Closed instance of mean_stars_spec: two 5-star and three 4-star reviews
give mean (2*5 + 3*4) / 5. -/
theorem mean_stars_spec_witness :
    mean_stars [(2 : ℝ), 3, 0, 0, 0] =
      ((2 : ℝ) * 5 + 3 * 4 + 0 * 3 + 0 * 2 + 0 * 1) / ((2 : ℝ) + 3 + 0 + 0 + 0) := by
  have h := (mean_stars_spec 2 3 0 0 0).1 (by norm_num)
  simpa using h

/-- C4: standard_dev_stars applies Bessel's correction when the total exceeds
1 and returns 0 when the total is at most 1, and the standard error of
getMeanAndSE is stdev / sqrt(total) for positive total and 0 for zero
total. -/
theorem standard_dev_and_se_spec (a b c d e : ℕ) (mu : ℝ) :
    (1 < a + b + c + d + e →
      standard_dev_stars [(a : ℝ), b, c, d, e] mu =
        Real.sqrt (((a : ℝ) * (5 - mu) ^ 2 + b * (4 - mu) ^ 2 + c * (3 - mu) ^ 2 +
          d * (2 - mu) ^ 2 + e * (1 - mu) ^ 2) / ((a : ℝ) + b + c + d + e - 1))) ∧
    (a + b + c + d + e ≤ 1 → standard_dev_stars [(a : ℝ), b, c, d, e] mu = 0) ∧
    (0 < a + b + c + d + e →
      (getMeanAndSE [(a : ℝ), b, c, d, e]).2 =
        standard_dev_stars [(a : ℝ), b, c, d, e]
            (mean_stars [(a : ℝ), b, c, d, e]) /
          Real.sqrt ((a : ℝ) + b + c + d + e)) ∧
    (a + b + c + d + e = 0 → (getMeanAndSE [(a : ℝ), b, c, d, e]).2 = 0) := by
  refine ⟨?_, ?_, ?_, ?_⟩
  · intro h
    exact standard_dev_stars_eval _ _ _ _ _ _ (by exact_mod_cast h)
  · intro h
    exact standard_dev_stars_small _ _ _ _ _ _ (by exact_mod_cast h)
  · intro h
    have hpos : 0 < sumArray [(a : ℝ), b, c, d, e] := by
      rw [sumArray_eval]
      exact_mod_cast h
    rw [getMeanAndSE_snd_pos _ hpos, sumArray_eval]
  · intro h
    have h0 : ¬ 0 < sumArray [(a : ℝ), b, c, d, e] := by
      rw [sumArray_eval]
      have : (a : ℝ) + b + c + d + e = 0 := by exact_mod_cast h
      simp [this]
    exact getMeanAndSE_snd_nonpos _ h0

/-- Closed instance of standard_dev_and_se_spec at five 5-star and five
4-star reviews, mu = 4.5. -/
theorem standard_dev_and_se_spec_witness :
    standard_dev_stars [(5 : ℝ), 5, 0, 0, 0] 4.5 =
      Real.sqrt (((5 : ℝ) * (5 - 4.5) ^ 2 + 5 * (4 - 4.5) ^ 2 + 0 * (3 - 4.5) ^ 2 +
        0 * (2 - 4.5) ^ 2 + 0 * (1 - 4.5) ^ 2) / ((5 : ℝ) + 5 + 0 + 0 + 0 - 1)) := by
  have h := (standard_dev_and_se_spec 5 5 0 0 0 4.5).1 (by norm_num)
  simpa using h

lemma estimatedConfidencePercent_eq (l : List ℝ) :
    estimatedConfidencePercent l = (mean_stars l - 1) / 4 * 100 := rfl

lemma lowerBoundPercent_eq (l : List ℝ) :
    lowerBoundPercent l =
      (mean_stars l - (getMeanAndSE l).2 * 1.96 - 1) / 4 * 100 := rfl

lemma upperBoundPercent_eq (l : List ℝ) :
    upperBoundPercent l =
      (mean_stars l + (getMeanAndSE l).2 * 1.96 - 1) / 4 * 100 := rfl

/-- C2: on the star-distribution path, for every 5-element list of
non-negative integer star counts with positive sum, the rescaled output
satisfies displayLowerBound ≤ estimatedConfidencePercent ≤ displayUpperBound
with all three values in [0, 100], although only the two bounds are
clamped. -/
theorem star_estimate_invariant (a b c d e : ℕ) (h : 0 < a + b + c + d + e) :
    0 ≤ displayLowerBound [(a : ℝ), b, c, d, e] ∧
    displayLowerBound [(a : ℝ), b, c, d, e] ≤
      estimatedConfidencePercent [(a : ℝ), b, c, d, e] ∧
    estimatedConfidencePercent [(a : ℝ), b, c, d, e] ≤
      displayUpperBound [(a : ℝ), b, c, d, e] ∧
    displayUpperBound [(a : ℝ), b, c, d, e] ≤ 100 ∧
    0 ≤ estimatedConfidencePercent [(a : ℝ), b, c, d, e] ∧
    estimatedConfidencePercent [(a : ℝ), b, c, d, e] ≤ 100 := by
  obtain ⟨hm1, hm5⟩ := mean_stars_mem a b c d e h
  have hs : 0 ≤ (getMeanAndSE [(a : ℝ), b, c, d, e]).2 := se_nonneg _
  have hpoint0 : 0 ≤ estimatedConfidencePercent [(a : ℝ), b, c, d, e] := by
    rw [estimatedConfidencePercent_eq]
    linarith
  have hpoint100 : estimatedConfidencePercent [(a : ℝ), b, c, d, e] ≤ 100 := by
    rw [estimatedConfidencePercent_eq]
    linarith
  refine ⟨le_max_left _ _, ?_, ?_, min_le_left _ _, hpoint0, hpoint100⟩
  · apply max_le hpoint0
    rw [lowerBoundPercent_eq, estimatedConfidencePercent_eq]
    nlinarith
  · apply le_min hpoint100
    rw [upperBoundPercent_eq, estimatedConfidencePercent_eq]
    nlinarith

/-- Closed instance of star_estimate_invariant at one review in each star
bucket. -/
theorem star_estimate_invariant_witness :
    0 ≤ displayLowerBound [(1 : ℝ), 1, 1, 1, 1] ∧
    displayLowerBound [(1 : ℝ), 1, 1, 1, 1] ≤
      estimatedConfidencePercent [(1 : ℝ), 1, 1, 1, 1] ∧
    estimatedConfidencePercent [(1 : ℝ), 1, 1, 1, 1] ≤
      displayUpperBound [(1 : ℝ), 1, 1, 1, 1] ∧
    displayUpperBound [(1 : ℝ), 1, 1, 1, 1] ≤ 100 ∧
    0 ≤ estimatedConfidencePercent [(1 : ℝ), 1, 1, 1, 1] ∧
    estimatedConfidencePercent [(1 : ℝ), 1, 1, 1, 1] ≤ 100 := by
  have h := star_estimate_invariant 1 1 1 1 1 (by norm_num)
  simpa using h

/-- C5: get_confidence_int returns exactly the unclamped pair
[mu - k * se, mu + k * se]; the handler rescales the mean and the two
interval bounds independently through ((v - 1) / 4) * 100 and clamps each
bound only after rescaling, the point never. -/
theorem confidence_int_and_rescale (mu se k : ℝ) (l : List ℝ) :
    get_confidence_int mu se k = (mu - k * se, mu + k * se) ∧
    estimatedConfidencePercent l = ((getMeanAndSE l).1 - 1) / 4 * 100 ∧
    displayLowerBound l =
      max 0 (((get_confidence_int (getMeanAndSE l).1 (getMeanAndSE l).2
        1.96).1 - 1) / 4 * 100) ∧
    displayUpperBound l =
      min 100 (((get_confidence_int (getMeanAndSE l).1 (getMeanAndSE l).2
        1.96).2 - 1) / 4 * 100) := by
  refine ⟨?_, rfl, rfl, rfl⟩
  unfold get_confidence_int
  rw [Prod.mk.injEq]
  exact ⟨by ring, by ring⟩

/-- C6: evaluation of the click-handler guard. A present zero-sum
star-count array and a present wrong-length array are detected and reported
as the distinguished insufficient-data outcome, but an absent starCounts
value makes sumArray throw a TypeError before the guard runs, so the
handler surfaces the generic script-error outcome instead of the
insufficient-data one. -/
theorem star_insufficient_data_gate :
    checkConfidenceStarPath (some [0, 0, 0, 0, 0]) =
      StarPathOutcome.insufficientData ∧
    checkConfidenceStarPath (some [1, 2, 3]) =
      StarPathOutcome.insufficientData ∧
    checkConfidenceStarPath none = StarPathOutcome.scriptError := by
  refine ⟨?_, ?_, rfl⟩
  · simp only [checkConfidenceStarPath]
    rw [if_pos]
    left
    rw [sumArray_eval]
    norm_num
  · simp only [checkConfidenceStarPath]
    rw [if_pos]
    right
    norm_num

end Part000

namespace Part001

/-- sumArray of src/unnamed/part_001: arr.reduce((sum, current) => sum + current, 0). -/
def sumArray (arr : List ℝ) : ℝ := arr.foldl (fun sum current => sum + current) 0

/-- The accumulation loop of mean_stars of src/unnamed/part_001. -/
def weightedSum (revs : List ℝ) : ℝ :=
  (List.range 5).foldl (fun acc i => acc + revs.getD i 0 * (5 - (i : ℝ))) 0

/-- mean_stars of src/unnamed/part_001. -/
noncomputable def mean_stars (revs : List ℝ) : ℝ :=
  if revs.length ≠ 5 then 0
  else if sumArray revs = 0 then 0
  else weightedSum revs / sumArray revs

/-- The accumulation loop of standard_dev_stars of src/unnamed/part_001. -/
def sumSquaredDifferences (revs : List ℝ) (mu : ℝ) : ℝ :=
  (List.range 5).foldl (fun acc i => acc + revs.getD i 0 * ((5 - (i : ℝ)) - mu) ^ 2) 0

/-- standard_dev_stars of src/unnamed/part_001. -/
noncomputable def standard_dev_stars (revs : List ℝ) (mu : ℝ) : ℝ :=
  if revs.length ≠ 5 then 0
  else if sumArray revs ≤ 1 then 0
  else Real.sqrt (sumSquaredDifferences revs mu / (sumArray revs - 1))

/-- getMeanAndSE of src/unnamed/part_001. -/
noncomputable def getMeanAndSE (rev_nums : List ℝ) : ℝ × ℝ :=
  let mu := mean_stars rev_nums
  let standard_dev := standard_dev_stars rev_nums mu
  let totalReviews := sumArray rev_nums
  (mu, if totalReviews > 0 then standard_dev / Real.sqrt totalReviews else 0)

/-- get_confidence_int of src/unnamed/part_001. -/
def get_confidence_int (mu se k : ℝ) : ℝ × ℝ := (mu - se * k, mu + se * k)

end Part001

/-- C10: the statistical core functions duplicated across the two
star-distribution variants compute identical results on every input: the
embeddings of mean_stars, standard_dev_stars, sumArray, getMeanAndSE and
get_confidence_int from src/unnamed/part_000 and src/unnamed/part_001 are
extensionally equal. -/
theorem variant_core_functions_equivalent :
    (∀ l : List ℝ, Part000.mean_stars l = Part001.mean_stars l) ∧
    (∀ (l : List ℝ) (mu : ℝ),
      Part000.standard_dev_stars l mu = Part001.standard_dev_stars l mu) ∧
    (∀ l : List ℝ, Part000.sumArray l = Part001.sumArray l) ∧
    (∀ l : List ℝ, Part000.getMeanAndSE l = Part001.getMeanAndSE l) ∧
    (∀ mu se k : ℝ,
      Part000.get_confidence_int mu se k = Part001.get_confidence_int mu se k) :=
  ⟨fun _ => rfl, fun _ _ => rfl, fun _ => rfl, fun _ => rfl, fun _ _ _ => rfl⟩
